import Mathlib

/-!
Verification of the Bird Sound Flashcards deck-session logic.

The definitions below are a shallow embedding of the TypeScript source:
  * `src/types.ts`            — `Card`, `BirdData`, `FilterMode`
  * `src/utils/arrayUtils.ts` — `shuffleArray` (Fisher–Yates)
  * `src/App.tsx`             — `filteredCards`, `currentCard`, the event
    handlers (`handleNext`, `handlePrevious`, `handleToggleLearned`,
    `handleToggleStarred`, `handleShuffle`, `handleSetFilterMode`,
    `handleFlip` with the pause-on-flip effect), and `initialCards`
  * `src/components/AllCardsView.tsx` — `displayCards`
React state updates become explicit state passing on `DeckState`;
`Math.random` draws become an oracle `rand : (i : Nat) → Fin (i + 1)`
(the draw `Math.floor(Math.random() * (i + 1))` always lies in `[0, i]`);
the external fuse.js search is a parameter `fuseSearch`.
-/

namespace BirdFlashcards

/-- `BirdData` from `src/types.ts`: one mapping entry
(`displayName : string`, `image : string | null`). -/
structure BirdData where
  displayName : String
  image : Option String
  deriving DecidableEq, Repr

/-- `Card` from `src/types.ts`. -/
structure Card where
  id : String
  audioFilename : String
  displayName : String
  imgSrc : Option String
  learned : Bool
  starred : Bool
  deriving DecidableEq, Repr

/-- `FilterMode` from `src/types.ts`: `"all" | "unlearned" | "learned" | "starred"`. -/
inductive FilterMode where
  | all
  | unlearned
  | learned
  | starred
  deriving DecidableEq, Repr

/-- `StoredCardStatus` from `src/App.tsx`: the per-card record persisted
in localStorage. -/
structure StoredCardStatus where
  learned : Bool
  starred : Bool
  deriving DecidableEq, Repr

/-- `IMAGE_DIR` from `src/config.ts` (value as documented in
`src/utils/imageUtils.ts`: image paths live under `/bird_images/`). -/
def IMAGE_DIR : String := "/bird_images/"

/-- `filteredCards` memo from `src/App.tsx`: switch on the filter mode;
`all` (and the default arm) returns the master list unchanged. -/
def filteredCards (cards : List Card) : FilterMode → List Card
  | .learned => cards.filter (fun card => card.learned)
  | .unlearned => cards.filter (fun card => !card.learned)
  | .starred => cards.filter (fun card => card.starred)
  | .all => cards

/-- `currentCard` memo from `src/App.tsx`: `undefined` when the filtered
list is empty or the index is past its end, otherwise the JS array access
`filteredCards[currentFilteredIndex]` (embedded as `getElem?`). -/
def currentCard (cards : List Card) (filterMode : FilterMode)
    (currentFilteredIndex : Nat) : Option Card :=
  let fc := filteredCards cards filterMode
  if fc.length = 0 ∨ currentFilteredIndex ≥ fc.length then none
  else fc[currentFilteredIndex]?

/-- The React state of `App` that the deck-session handlers touch. -/
structure DeckState where
  cards : List Card
  currentFilteredIndex : Nat
  isFlipped : Bool
  filterMode : FilterMode
  deriving DecidableEq, Repr

/-- Length of the derived view (`filteredCards.length` in the source). -/
def viewLen (s : DeckState) : Nat :=
  (filteredCards s.cards s.filterMode).length

/-- `handleNext` from `src/App.tsx`. -/
def handleNext (s : DeckState) : DeckState :=
  if viewLen s = 0 then s
  else { s with currentFilteredIndex := (s.currentFilteredIndex + 1) % viewLen s }

/-- `handlePrevious` from `src/App.tsx`. The source computes
`(prevIndex - 1 + filteredCards.length) % filteredCards.length` over JS
numbers; with `prevIndex ≥ 0` and a nonzero length this value is
nonnegative and equals the `Nat` expression `prevIndex + len - 1`. -/
def handlePrevious (s : DeckState) : DeckState :=
  if viewLen s = 0 then s
  else { s with currentFilteredIndex :=
    (s.currentFilteredIndex + viewLen s - 1) % viewLen s }

/-- `handleToggleLearned` from `src/App.tsx`: map over the master list,
flipping `learned` on the card whose id matches. No other state changes. -/
def handleToggleLearned (idToToggle : String) (s : DeckState) : DeckState :=
  { s with cards := s.cards.map (fun card =>
      if card.id = idToToggle then { card with learned := !card.learned } else card) }

/-- `handleToggleStarred` from `src/App.tsx`. -/
def handleToggleStarred (idToToggle : String) (s : DeckState) : DeckState :=
  { s with cards := s.cards.map (fun card =>
      if card.id = idToToggle then { card with starred := !card.starred } else card) }

/-- One JS array swap `[arr[i], arr[j]] = [arr[j], arr[i]]` on a list;
identity when either index is out of bounds (never the case in the
shuffle loop, where `j ≤ i < length`). -/
def swapList (l : List α) (i j : Nat) : List α :=
  match l[i]?, l[j]? with
  | some a, some b => (l.set i b).set j a
  | _, _ => l

/-- The Fisher–Yates loop of `shuffleArray` (`src/utils/arrayUtils.ts`)
run from index `i` down to `1`: at each index the element is swapped with
the randomly drawn index `rand i ∈ [0, i]`. -/
def fisherYatesFrom (rand : (i : Nat) → Fin (i + 1)) : Nat → List α → List α
  | 0, l => l
  | i + 1, l => fisherYatesFrom rand i (swapList l (i + 1) (rand (i + 1)).val)

/-- `shuffleArray` from `src/utils/arrayUtils.ts`: copy the array and run
the swap loop for `i` from `length - 1` down to `1`. -/
def shuffleArray (rand : (i : Nat) → Fin (i + 1)) (array : List α) : List α :=
  fisherYatesFrom rand (array.length - 1) array

/-- `handleShuffle` from `src/App.tsx`: no-op when the master list has at
most one card, otherwise replace the master list with a shuffled copy,
reset the index to `0` and un-flip. -/
def handleShuffle (rand : (i : Nat) → Fin (i + 1)) (s : DeckState) : DeckState :=
  if s.cards.length ≤ 1 then s
  else { s with
    cards := shuffleArray rand s.cards
    currentFilteredIndex := 0
    isFlipped := false }

/-- `handleSetFilterMode` from `src/App.tsx`: the whole body is guarded by
`newMode !== filterMode`, so a same-value call changes nothing at all. -/
def handleSetFilterMode (newMode : FilterMode) (s : DeckState) : DeckState :=
  if newMode ≠ s.filterMode then
    { s with filterMode := newMode, currentFilteredIndex := 0, isFlipped := false }
  else s

/-- The flip/playback slice of the App state (`isFlipped`, `isPlaying`). -/
structure PlaybackFlipState where
  isFlipped : Bool
  isPlaying : Bool
  deriving DecidableEq, Repr

/-- The `useEffect` in `src/App.tsx` watching `isFlipped`: when flipped to
the back it calls `audioRef.current.pause()`, whose `onPause` event sets
`isPlaying` to `false`; flipping back to the front does nothing (the
comment in the source forbids auto-play there). -/
def pauseOnFlipEffect (s : PlaybackFlipState) : PlaybackFlipState :=
  if s.isFlipped then { s with isPlaying := false } else s

/-- `handleFlip` from `src/App.tsx` followed by the effect it triggers:
no-op without a current card, otherwise toggle `isFlipped` and run the
pause-on-flip effect. -/
def handleFlip (hasCurrentCard : Bool) (s : PlaybackFlipState) : PlaybackFlipState :=
  if hasCurrentCard then pauseOnFlipEffect { s with isFlipped := !s.isFlipped } else s

/-- `initialCards` construction from `src/App.tsx` (initialization
effect): map each manifest filename to a card when the mapping has an
entry for it, and `null` otherwise; then filter the `null`s out
(`List.filterMap` is exactly this map-then-drop-nulls).  Saved statuses
overlay `learned`/`starred`, defaulting to `false`. -/
def initialCards (birdMapping : String → Option BirdData)
    (savedStatuses : String → Option StoredCardStatus)
    (audioFilenames : List String) : List Card :=
  audioFilenames.filterMap (fun audioFilename =>
    match birdMapping audioFilename with
    | none => none
    | some mappingData =>
      some {
        id := audioFilename
        audioFilename := audioFilename
        displayName :=
          if mappingData.displayName = "" then "Unknown Bird" else mappingData.displayName
        imgSrc :=
          match mappingData.image with
          | some img => if img = "" then none else some (IMAGE_DIR ++ img)
          | none => none
        learned :=
          match savedStatuses audioFilename with
          | some st => st.learned
          | none => false
        starred :=
          match savedStatuses audioFilename with
          | some st => st.starred
          | none => false })

/-- `displayCards` memo from `src/components/AllCardsView.tsx`: the guard
`if (!searchQuery) return cards` fires exactly on the empty string (JS
string falsiness); any other query, whitespace included, goes through the
fuse.js search (`fuse.search(q).map(r => r.item)`), here a parameter. -/
def displayCards (fuseSearch : String → List Card) (cards : List Card)
    (searchQuery : String) : List Card :=
  if searchQuery = "" then cards else fuseSearch searchQuery

/-- Spec-side predicate of a filter mode, taken from the spec's words:
`all`: every card; `learned`: `card.learned`; `unlearned`: not
`card.learned`; `starred`: `card.starred`. -/
def filterPred : FilterMode → Card → Bool
  | .all, _ => true
  | .learned, card => card.learned
  | .unlearned, card => !card.learned
  | .starred, card => card.starred

/-- Spec-side view, per the spec's words: the subsequence of the
collection containing exactly the cards satisfying the filter's
predicate, in the same relative order. -/
def viewSpec (cards : List Card) (f : FilterMode) : List Card :=
  cards.filter (filterPred f)

/-- Concrete sample cards and states used by witnesses and counterexamples. -/
def cardA : Card :=
  { id := "A.mp3", audioFilename := "A.mp3", displayName := "A"
    imgSrc := none, learned := true, starred := false }

def cardB : Card :=
  { id := "B.mp3", audioFilename := "B.mp3", displayName := "B"
    imgSrc := none, learned := true, starred := false }

def cardC : Card :=
  { id := "C.mp3", audioFilename := "C.mp3", displayName := "C"
    imgSrc := none, learned := false, starred := true }

/-- A state under the `learned` filter with the cursor on the second of
two visible cards. -/
def sToggleCE : DeckState :=
  { cards := [cardA, cardB], currentFilteredIndex := 1
    isFlipped := false, filterMode := .learned }

/-- A state under the `all` filter with a nonzero cursor. -/
def sFilterCE : DeckState :=
  { cards := [cardA, cardB, cardC], currentFilteredIndex := 2
    isFlipped := false, filterMode := .all }

/-- A two-card state used for the circular-navigation witness. -/
def sNavWit : DeckState :=
  { cards := [cardA, cardC], currentFilteredIndex := 1
    isFlipped := false, filterMode := .all }

/-- Front face showing, audio playing. -/
def playingFront : PlaybackFlipState := { isFlipped := false, isPlaying := true }

/- ------------------------------------------------------------------ -/
/- Helper lemmas -/
/- ------------------------------------------------------------------ -/

/-- Replacing the entry at `m` by the fresh head `a` while moving the old
entry `b` to the head permutes `a :: t`. -/
theorem cons_perm_set (a : α) :
    ∀ (t : List α) (m : Nat) (b : α), t[m]? = some b →
      List.Perm (a :: t) (b :: t.set m a) := by
  intro t
  induction t with
  | nil => intro m b h; simp at h
  | cons c t ih =>
    intro m b h
    cases m with
    | zero =>
      simp at h
      subst h
      simpa using List.Perm.swap _ a t
    | succ m =>
      simp at h
      have h2 := ih m b h
      exact (List.Perm.swap c a t).trans ((h2.cons c).trans (List.Perm.swap b c _))

/-- A JS array swap is a permutation. -/
theorem swapList_perm : ∀ (l : List α) (i j : Nat), List.Perm (swapList l i j) l := by
  intro l
  induction l with
  | nil => intro i j; simp [swapList]
  | cons a t ih =>
    intro i j
    cases i with
    | zero =>
      cases j with
      | zero => simp [swapList]
      | succ m =>
        cases hm : t[m]? with
        | none => simp [swapList, hm]
        | some b =>
          have h := (cons_perm_set a t m b hm).symm
          simpa [swapList, hm] using h
    | succ n =>
      cases j with
      | zero =>
        cases hn : t[n]? with
        | none => simp [swapList, hn]
        | some b =>
          have h := (cons_perm_set a t n b hn).symm
          simpa [swapList, hn] using h
      | succ m =>
        cases hn : t[n]? with
        | none => simp [swapList, hn]
        | some c =>
          cases hm : t[m]? with
          | none => simp [swapList, hn, hm]
          | some b =>
            have h := (ih n m).cons a
            simpa [swapList, hn, hm] using h

/-- Every run of the Fisher–Yates loop permutes its input. -/
theorem fisherYatesFrom_perm (rand : (i : Nat) → Fin (i + 1)) :
    ∀ (i : Nat) (l : List α), List.Perm (fisherYatesFrom rand i l) l := by
  intro i
  induction i with
  | zero => intro l; exact List.Perm.refl l
  | succ i ih =>
    intro l
    exact (ih _).trans (swapList_perm l (i + 1) (rand (i + 1)).val)

theorem handleNext_cards (s : DeckState) : (handleNext s).cards = s.cards := by
  unfold handleNext; split <;> rfl

theorem handleNext_filterMode (s : DeckState) :
    (handleNext s).filterMode = s.filterMode := by
  unfold handleNext; split <;> rfl

theorem handleNext_step (s : DeckState) (h : ¬ viewLen s = 0) :
    (handleNext s).currentFilteredIndex = (s.currentFilteredIndex + 1) % viewLen s := by
  unfold handleNext
  rw [if_neg h]

/-- Iterating `handleNext` adds `k` to the cursor modulo the view length
and leaves the collection and filter unchanged. -/
theorem handleNext_iterate (s : DeckState) (h : s.currentFilteredIndex < viewLen s) :
    ∀ k : Nat,
      (handleNext^[k] s).currentFilteredIndex = (s.currentFilteredIndex + k) % viewLen s ∧
      (handleNext^[k] s).cards = s.cards ∧
      (handleNext^[k] s).filterMode = s.filterMode := by
  intro k
  induction k with
  | zero => simpa using (Nat.mod_eq_of_lt h).symm
  | succ k ih =>
    obtain ⟨h1, h2, h3⟩ := ih
    have hv : viewLen (handleNext^[k] s) = viewLen s := by
      unfold viewLen; rw [h2, h3]
    have hne : ¬ viewLen (handleNext^[k] s) = 0 := by
      rw [hv]; omega
    refine ⟨?_, ?_, ?_⟩
    · rw [Function.iterate_succ_apply', handleNext_step _ hne, h1, hv, Nat.mod_add_mod,
        Nat.add_assoc]
    · rw [Function.iterate_succ_apply', handleNext_cards, h2]
    · rw [Function.iterate_succ_apply', handleNext_filterMode, h3]

/-- Mapping a conditional rewrite whose guard matches no element is the
identity. -/
theorem map_toggle_absent (idv : String) (f : Card → Card) :
    ∀ l : List Card, (∀ c ∈ l, c.id ≠ idv) →
      l.map (fun card => if card.id = idv then f card else card) = l := by
  intro l
  induction l with
  | nil => intro _; rfl
  | cons a t ih =>
    intro h
    have ha : a.id ≠ idv := h a (List.mem_cons_self a t)
    have ht : ∀ c ∈ t, c.id ≠ idv := fun c hc => h c (List.mem_cons_of_mem a hc)
    simp [List.map_cons, if_neg ha, ih ht]

/- ------------------------------------------------------------------ -/
/- Claim theorems -/
/- ------------------------------------------------------------------ -/

/-- C1 (counterexample). Starting under the `learned` filter from a valid
state (two learned cards, cursor on the second), toggling the second
card's `learned` flag shrinks the view to one card but leaves the cursor
at `1`: the view is non-empty, the cursor is not within `[0, view.length)`
and it was not reset to `0`, contradicting the claim. -/
theorem toggleLearned_breaks_cursor_range :
    sToggleCE.currentFilteredIndex < viewLen sToggleCE ∧
    viewLen (handleToggleLearned "B.mp3" sToggleCE) ≠ 0 ∧
    ¬ (handleToggleLearned "B.mp3" sToggleCE).currentFilteredIndex <
        viewLen (handleToggleLearned "B.mp3" sToggleCE) ∧
    (handleToggleLearned "B.mp3" sToggleCE).currentFilteredIndex ≠ 0 := by
  decide

/-- C1 (amended). `setFilter` and `shuffle` do keep the cursor within
`[0, view.length)` (or the view empty) whenever it was valid before, but
`toggleLearned`/`toggleStarred` leave the cursor untouched, so after a
toggle it may lie at or beyond the shrunken view's length (the
current-card accessor then yields no card; the cursor is not reset). -/
theorem cursor_after_mutations (s : DeckState) (m : FilterMode)
    (rand : (i : Nat) → Fin (i + 1)) (idv : String)
    (h : s.currentFilteredIndex < viewLen s ∨ viewLen s = 0) :
    ((handleSetFilterMode m s).currentFilteredIndex < viewLen (handleSetFilterMode m s) ∨
      viewLen (handleSetFilterMode m s) = 0) ∧
    ((handleShuffle rand s).currentFilteredIndex < viewLen (handleShuffle rand s) ∨
      viewLen (handleShuffle rand s) = 0) ∧
    (handleToggleLearned idv s).currentFilteredIndex = s.currentFilteredIndex ∧
    (handleToggleStarred idv s).currentFilteredIndex = s.currentFilteredIndex := by
  refine ⟨?_, ?_, rfl, rfl⟩
  · unfold handleSetFilterMode
    split
    · simp only []
      omega
    · exact h
  · unfold handleShuffle
    split
    · exact h
    · simp only []
      omega

/-- C1 (witness for the amended theorem at a concrete valid state). -/
theorem cursor_after_mutations_witness :
    (sNavWit.currentFilteredIndex < viewLen sNavWit ∨ viewLen sNavWit = 0) ∧
    (((handleSetFilterMode .starred sNavWit).currentFilteredIndex <
        viewLen (handleSetFilterMode .starred sNavWit) ∨
      viewLen (handleSetFilterMode .starred sNavWit) = 0) ∧
    ((handleShuffle (fun _ => 0) sNavWit).currentFilteredIndex <
        viewLen (handleShuffle (fun _ => 0) sNavWit) ∨
      viewLen (handleShuffle (fun _ => 0) sNavWit) = 0) ∧
    (handleToggleLearned "A.mp3" sNavWit).currentFilteredIndex =
      sNavWit.currentFilteredIndex ∧
    (handleToggleStarred "A.mp3" sNavWit).currentFilteredIndex =
      sNavWit.currentFilteredIndex) :=
  ⟨by decide,
   cursor_after_mutations sNavWit .starred (fun _ => 0) "A.mp3" (by decide)⟩

/-- C2. `shuffleArray` (the Fisher–Yates loop, swapping index `i` with
the drawn index `rand i ∈ [0, i]` for `i` from `length - 1` down to `1`)
returns a permutation of its input for every draw oracle — the same
multiset of cards, hence the same multiset of `id`s, never duplicating or
dropping a card; `handleShuffle` therefore also permutes the master
list. -/
theorem shuffleArray_perm (rand : (i : Nat) → Fin (i + 1))
    (cards : List Card) (s : DeckState) :
    List.Perm (shuffleArray rand cards) cards ∧
    List.Perm ((shuffleArray rand cards).map Card.id) (cards.map Card.id) ∧
    List.Perm (handleShuffle rand s).cards s.cards := by
  have h : List.Perm (shuffleArray rand cards) cards :=
    fisherYatesFrom_perm rand (cards.length - 1) cards
  refine ⟨h, h.map Card.id, ?_⟩
  unfold handleShuffle
  split
  · exact List.Perm.refl _
  · exact fisherYatesFrom_perm rand (s.cards.length - 1) s.cards

/-- C3. For every collection and filter mode, the derived view
`filteredCards` equals the spec-side `viewSpec` (the subsequence of the
collection of exactly the cards satisfying the filter's predicate, in the
same relative order): it is a sublist of the collection and membership is
exactly the predicate. -/
theorem filteredCards_eq_viewSpec (cards : List Card) (f : FilterMode) :
    filteredCards cards f = viewSpec cards f ∧
    List.Sublist (filteredCards cards f) cards ∧
    (∀ c : Card, c ∈ filteredCards cards f ↔ c ∈ cards ∧ filterPred f c = true) := by
  have hmain : filteredCards cards f = viewSpec cards f := by
    cases f
    · show cards = cards.filter (fun _ => true)
      exact (List.filter_eq_self.mpr (fun a _ => rfl)).symm
    · rfl
    · rfl
    · rfl
  refine ⟨hmain, ?_, ?_⟩
  · rw [hmain]
    exact List.filter_sublist cards
  · intro c
    rw [hmain]
    simp [viewSpec, List.mem_filter]

/-- C4 (counterexample). With the `all` filter active and the cursor at
`2`, calling `setFilter(all)` again leaves the cursor at `2`: a
same-value `setFilter` does not reset the cursor to `0`, contradicting
the claim's "identical to always recomputing" requirement. -/
theorem setFilterMode_same_value_keeps_cursor :
    (handleSetFilterMode .all sFilterCE).currentFilteredIndex = 2 ∧
    (handleSetFilterMode .all sFilterCE).currentFilteredIndex ≠ 0 ∧
    handleSetFilterMode .all sFilterCE = sFilterCE := by
  decide

/-- C4 (amended). `setFilter(mode)` with a mode different from the active
filter installs the new mode, resets the cursor to `0` and un-flips; a
same-value `setFilter` is a complete no-op, leaving the (possibly
nonzero) cursor and all other state unchanged. -/
theorem handleSetFilterMode_spec (s : DeckState) (m : FilterMode) :
    (m ≠ s.filterMode →
      handleSetFilterMode m s =
        { s with filterMode := m, currentFilteredIndex := 0, isFlipped := false }) ∧
    (m = s.filterMode → handleSetFilterMode m s = s) := by
  constructor
  · intro h
    unfold handleSetFilterMode
    rw [if_pos h]
  · intro h
    unfold handleSetFilterMode
    rw [if_neg]
    simp [h]

/-- C4 (witness): both branches of the amended theorem at concrete
states. -/
theorem handleSetFilterMode_spec_witness :
    handleSetFilterMode .all sFilterCE = sFilterCE ∧
    handleSetFilterMode .starred sFilterCE =
      { sFilterCE with
        filterMode := .starred
        currentFilteredIndex := 0
        isFlipped := false } :=
  ⟨(handleSetFilterMode_spec sFilterCE .all).2 rfl,
   (handleSetFilterMode_spec sFilterCE .starred).1 (by decide)⟩

/-- C5 (counterexample). Toggling an id absent from the collection
completes silently and leaves the state unchanged — there is no
`CardNotFound` failure anywhere in the handlers, contradicting the
claim. -/
theorem toggleLearned_absent_id_silent :
    (∀ c ∈ sToggleCE.cards, c.id ≠ "Sparrow.mp3") ∧
    handleToggleLearned "Sparrow.mp3" sToggleCE = sToggleCE ∧
    handleToggleStarred "Sparrow.mp3" sToggleCE = sToggleCE := by
  decide

/-- C5 (amended). For every id absent from the collection,
`toggleLearned` and `toggleStarred` are total and complete silently as
the identity on the state: no card changes and no failure is raised. -/
theorem toggle_absent_id_noop (s : DeckState) (idv : String)
    (h : ∀ c ∈ s.cards, c.id ≠ idv) :
    handleToggleLearned idv s = s ∧ handleToggleStarred idv s = s := by
  cases s with
  | mk cards idx fl fm =>
    unfold handleToggleLearned handleToggleStarred
    simp only [DeckState.mk.injEq, and_true, true_and]
    exact ⟨map_toggle_absent idv _ cards h, map_toggle_absent idv _ cards h⟩

/-- C5 (witness for the amended theorem at a concrete absent id). -/
theorem toggle_absent_id_noop_witness :
    handleToggleLearned "Z.mp3" sToggleCE = sToggleCE ∧
    handleToggleStarred "Z.mp3" sToggleCE = sToggleCE :=
  toggle_absent_id_noop sToggleCE "Z.mp3" (by decide)

/-- C6. On a non-empty view with the cursor in range, `handleNext`
composed `view.length` times returns the cursor to its start; a single
`handleNext` moves it to `(cursor + 1) % len` and a single
`handlePrevious` to `(cursor - 1 + len) % len` (stated over `Int`, where
the source's formula lives). -/
theorem advance_circular (s : DeckState) (h : s.currentFilteredIndex < viewLen s) :
    (handleNext^[viewLen s] s).currentFilteredIndex = s.currentFilteredIndex ∧
    (handleNext s).currentFilteredIndex = (s.currentFilteredIndex + 1) % viewLen s ∧
    ((handlePrevious s).currentFilteredIndex : Int) =
      ((s.currentFilteredIndex : Int) - 1 + (viewLen s : Int)) % (viewLen s : Int) := by
  have hne : ¬ viewLen s = 0 := by omega
  refine ⟨?_, ?_, ?_⟩
  · have h1 := (handleNext_iterate s h (viewLen s)).1
    rw [h1, Nat.add_mod_right, Nat.mod_eq_of_lt h]
  · unfold handleNext
    rw [if_neg hne]
  · unfold handlePrevious
    rw [if_neg hne]
    simp only []
    have hc : ((s.currentFilteredIndex + viewLen s - 1 : Nat) : Int) =
        (s.currentFilteredIndex : Int) - 1 + (viewLen s : Int) := by omega
    rw [Int.natCast_mod, hc]

/-- C6 (witness): a two-card view starting at cursor `1`. -/
theorem advance_circular_witness :
    sNavWit.currentFilteredIndex < viewLen sNavWit ∧
    ((handleNext^[viewLen sNavWit] sNavWit).currentFilteredIndex =
      sNavWit.currentFilteredIndex ∧
    (handleNext sNavWit).currentFilteredIndex =
      (sNavWit.currentFilteredIndex + 1) % viewLen sNavWit ∧
    ((handlePrevious sNavWit).currentFilteredIndex : Int) =
      ((sNavWit.currentFilteredIndex : Int) - 1 + (viewLen sNavWit : Int)) %
        (viewLen sNavWit : Int)) :=
  ⟨by decide, advance_circular sNavWit (by decide)⟩

/-- C7 (counterexample). The guard in `displayCards` treats only the
empty string as "no query": a whitespace-only query `" "` is handed to
the fuzzy search, so with a search component returning no hits (a valid
result per the spec) the result is empty, not the full collection. -/
theorem blank_query_not_full_collection :
    displayCards (fun _ => []) [cardA] " " = [] ∧
    displayCards (fun _ => []) [cardA] " " ≠ [cardA] ∧
    " " ≠ "" ∧ " ".toList.all Char.isWhitespace = true := by
  decide

/-- C7 (amended). A search with an empty query returns the full
collection in its current order, for every search component and
collection; a whitespace-only query is treated as a non-empty query and
is passed to the fuzzy search, whose result it returns unchanged. -/
theorem empty_query_returns_collection (fuseSearch : String → List Card)
    (cards : List Card) :
    displayCards fuseSearch cards "" = cards ∧
    displayCards fuseSearch cards " " = fuseSearch " " := by
  exact ⟨rfl, rfl⟩

/-- C8. With a current card showing its front face and its audio playing,
`flip()` shows the back face and pauses playback, and a second `flip()`
returns to the front face with playback still paused — flipping back
never auto-resumes. -/
theorem flip_pauses_playback :
    handleFlip true playingFront =
      { isFlipped := true, isPlaying := false } ∧
    handleFlip true (handleFlip true playingFront) =
      { isFlipped := false, isPlaying := false } := by
  decide

/-- C9. Initialization keeps exactly the manifest identifiers that have a
mapping entry, in manifest order: the ids of `initialCards` are the
manifest filtered to mapped identifiers, and an identifier yields a card
iff it is in the manifest and mapped (never a placeholder card). -/
theorem initialCards_ids (birdMapping : String → Option BirdData)
    (savedStatuses : String → Option StoredCardStatus)
    (audioFilenames : List String) :
    (initialCards birdMapping savedStatuses audioFilenames).map Card.id =
      audioFilenames.filter (fun fn => (birdMapping fn).isSome) ∧
    (∀ fn : String,
      fn ∈ (initialCards birdMapping savedStatuses audioFilenames).map Card.id ↔
        fn ∈ audioFilenames ∧ (birdMapping fn).isSome) := by
  have hmain : (initialCards birdMapping savedStatuses audioFilenames).map Card.id =
      audioFilenames.filter (fun fn => (birdMapping fn).isSome) := by
    induction audioFilenames with
    | nil => rfl
    | cons fn rest ih =>
      unfold initialCards at ih ⊢
      cases hfn : birdMapping fn with
      | none => simp [List.filterMap_cons, List.filter_cons, hfn, ih]
      | some md => simp [List.filterMap_cons, List.filter_cons, hfn, ih]
  refine ⟨hmain, fun fn => ?_⟩
  rw [hmain]
  simp [List.mem_filter]

/-- C10. The current-card accessor is total: it equals the (option-valued)
view lookup at the cursor, and it returns no card exactly when the view
is empty or the cursor is at or beyond the view's length — otherwise it
returns the view element at the cursor. -/
theorem currentCard_total (cards : List Card) (fm : FilterMode) (idx : Nat) :
    currentCard cards fm idx = (filteredCards cards fm)[idx]? ∧
    (currentCard cards fm idx = none ↔
      (filteredCards cards fm).length = 0 ∨ (filteredCards cards fm).length ≤ idx) := by
  have heq : currentCard cards fm idx = (filteredCards cards fm)[idx]? := by
    show (if (filteredCards cards fm).length = 0 ∨ idx ≥ (filteredCards cards fm).length
        then none else (filteredCards cards fm)[idx]?) = (filteredCards cards fm)[idx]?
    split
    · next h =>
      have hle : (filteredCards cards fm).length ≤ idx := by omega
      exact (List.getElem?_eq_none hle).symm
    · rfl
  refine ⟨heq, ?_⟩
  rw [heq, List.getElem?_eq_none_iff]
  omega

end BirdFlashcards
